import Mathlib

/-!
Verification of the animal-breed-identifier application.

The development shallowly embeds the application's persistence layer
(src/services/db.ts, class AnimalDB over IndexedDB), the session/view
controller (src/App.tsx), the login form logic (the Login component),
the speech-synthesis response extraction (src/services/geminiService.ts,
generateBreedAudio) and the Dashboard's in-place scan mutations
(src/components/Dashboard.tsx).

Modelling conventions:
- An IndexedDB object store keyed by the record's id field is a list of
  records; the keyPath guarantees at most one record per id, and the
  unique secondary index on the users store guarantees at most one
  record per email.  States satisfying those two constraints are the
  well-formed states; operations are defined on all list states.
- A put is insert-or-replace by id; it fails (ConstraintError) exactly
  when a unique index value is already held by a different primary key,
  which is the users store's email index.
- The scans object store holds no unique secondary index, so its put
  and delete never fail; they are total functions on the state.
- Timestamps are stored by the source as ISO-8601 strings produced by
  Date.toISOString and compared by the millisecond values produced by
  Date parsing (db.ts line 111); the embedding carries the millisecond
  value directly as a Nat, which is order-isomorphic to the source's
  representation for such strings.
- JavaScript numbers that are never computed with (confidence, price)
  are carried as Int.
-/

namespace BreedFinder

/-- src/types.ts: the closed two-value role enumeration. -/
inductive UserRole where
  | USER
  | ADMIN
deriving DecidableEq

/-- src/types.ts: the User (Identity) record. -/
structure User where
  id : String
  name : String
  email : String
  role : UserRole
  createdAt : String
deriving DecidableEq

/-- src/types.ts: severity is a closed three-value enumeration. -/
inductive Severity where
  | Low
  | Medium
  | High
deriving DecidableEq

/-- src/types.ts: one detected health issue. -/
structure HealthIssue where
  issue : String
  severity : Severity
  description : String
  recommendedAction : String
deriving DecidableEq

/-- src/types.ts: the embedded health-analysis sub-record. -/
structure HealthAnalysisResponse where
  potentialIssues : List HealthIssue
  summary : String
  isHealthy : Bool
deriving DecidableEq

/-- src/types.ts: the BreedResult (Scan Result) record.  The optional
fields healthAnalysis and isPurchased are Option, absent by default.
timestamp carries the millisecond value of the source's ISO string. -/
structure BreedResult where
  id : String
  userId : String
  imageUrl : String
  animalType : String
  breedName : String
  confidence : Int
  description : String
  similarBreeds : List String
  timestamp : Nat
  healthAnalysis : Option HealthAnalysisResponse
  price : Int
  uses : List String
  lifeExpectancy : String
  dietRoutine : String
  exercisePlan : String
  isPurchased : Option Bool
deriving DecidableEq

/-- The two object stores created in AnimalDB.init (db.ts lines 26-36):
users keyed by id with a unique index on email, scans keyed by id with
non-unique indexes on userId and timestamp. -/
structure DBState where
  users : List User
  scans : List BreedResult
deriving DecidableEq

/-- The freshly created database: both object stores empty. -/
def emptyDB : DBState := ⟨[], []⟩

/-- IDBObjectStore.put on a store keyed by the id field: replace the
record holding the same key if one exists, otherwise add the record.
(IndexedDB keeps records in key order; none of the verified properties
depends on the store's internal order, so insertion order is kept.) -/
def putByKey {α : Type} (key : α → String) (x : α) (l : List α) : List α :=
  if ∃ y ∈ l, key y = key x then
    l.map fun y => if key y = key x then x else y
  else
    l ++ [x]

/-- AnimalDB.saveUser (db.ts lines 43-52): store.put(user) on the users
store.  The unique email index makes the put fail with a ConstraintError
exactly when a different id already holds the same email; otherwise the
put is insert-or-replace by id. -/
def saveUser (s : DBState) (u : User) : Except String DBState :=
  if ∃ v ∈ s.users, v.email = u.email ∧ v.id ≠ u.id then
    .error "ConstraintError"
  else
    .ok { s with users := putByKey User.id u s.users }

/-- AnimalDB.getUser (db.ts lines 54-63): store.get(id), null on absence. -/
def getUser (s : DBState) (id : String) : Option User :=
  s.users.find? fun v => decide (v.id = id)

/-- AnimalDB.getUserByEmail (db.ts lines 65-75): index('email').get(email);
the unique index holds at most one record per email in well-formed states. -/
def getUserByEmail (s : DBState) (email : String) : Option User :=
  s.users.find? fun v => decide (v.email = email)

/-- AnimalDB.getAllUsers (db.ts lines 77-86): store.getAll(). -/
def getAllUsers (s : DBState) : List User :=
  s.users

/-- The comparator of db.ts lines 111 and 125: scan a precedes scan b
when b's timestamp is at most a's, that is, newest first. -/
def scanDescOrder (a b : BreedResult) : Prop :=
  b.timestamp ≤ a.timestamp

instance : DecidableRel scanDescOrder := fun a b => Nat.decLe b.timestamp a.timestamp

instance : IsTotal BreedResult scanDescOrder := ⟨fun a b => Nat.le_total b.timestamp a.timestamp⟩

instance : IsTrans BreedResult scanDescOrder := ⟨fun _ _ _ hab hbc => Nat.le_trans hbc hab⟩

/-- The in-memory comparison sort of db.ts lines 111 and 125:
scans.sort by timestamp descending.  Any stable comparison sort with
that comparator produces the same list; insertion sort is used here. -/
def sortByTimestampDesc (l : List BreedResult) : List BreedResult :=
  l.insertionSort scanDescOrder

/-- AnimalDB.saveScan (db.ts lines 90-99): store.put(scan) on the scans
store; insert-or-replace by id, never fails (no unique secondary index). -/
def saveScan (s : DBState) (r : BreedResult) : DBState :=
  { s with scans := putByKey BreedResult.id r s.scans }

/-- AnimalDB.getUserScans (db.ts lines 101-115): index('userId').getAll(userId),
then sorted by timestamp descending before resolving. -/
def getUserScans (s : DBState) (userId : String) : List BreedResult :=
  sortByTimestampDesc (s.scans.filter fun r => decide (r.userId = userId))

/-- AnimalDB.getAllScans (db.ts lines 117-129): store.getAll() then the
same newest-first sort. -/
def getAllScans (s : DBState) : List BreedResult :=
  sortByTimestampDesc s.scans

/-- AnimalDB.deleteScan (db.ts lines 131-140): store.delete(id).
IDBObjectStore.delete succeeds (onsuccess fires) whether or not a record
with the key exists, so absence is not an error path; the operation is a
total function on the state. -/
def deleteScan (s : DBState) (id : String) : DBState :=
  { s with scans := s.scans.filter fun r => decide (¬ r.id = id) }

/-- The fixed administrator email of AnimalDB.seedAdmin (db.ts line 144). -/
def adminEmail : String := "admin@breedfinder.com"

/-- The fixed administrator record inserted by seedAdmin (db.ts lines 147-153);
createdAt is the current time at the call. -/
def adminUser (now : String) : User :=
  { id := "admin-1", name := "System Administrator", email := adminEmail
    role := UserRole.ADMIN, createdAt := now }

/-- AnimalDB.seedAdmin (db.ts lines 143-155): look up the fixed email;
insert the fixed administrator record only when the lookup is empty. -/
def seedAdmin (now : String) (s : DBState) : Except String DBState :=
  match getUserByEmail s adminEmail with
  | some _ => .ok s
  | none => saveUser s (adminUser now)

/-- src/App.tsx line 14: the five screens of the view state. -/
inductive View where
  | landing
  | login
  | signup
  | dashboard
  | admin
deriving DecidableEq

/-- src/App.tsx lines 13-14: the controller state, the current
authenticated identity and the active screen. -/
structure AppState where
  currentUser : Option User
  view : View
deriving DecidableEq

/-- The role-appropriate screen chosen at App.tsx lines 28 and 44:
admin for the administrator role, dashboard otherwise. -/
def roleView (u : User) : View :=
  if u.role = UserRole.ADMIN then View.admin else View.dashboard

/-- App.initApp (App.tsx lines 17-39), after db.init and seedAdmin: read
the persisted identity pointer (localStorage key animal_id_uid); when it
resolves through getUser, set the current identity and the
role-appropriate view; otherwise keep the initial state, no current
identity and the landing view. -/
def initApp (storedUserId : Option String) (s : DBState) : AppState :=
  match storedUserId with
  | some uid =>
    match getUser s uid with
    | some u => { currentUser := some u, view := roleView u }
    | none => { currentUser := none, view := View.landing }
  | none => { currentUser := none, view := View.landing }

/-- App.handleLogin (App.tsx lines 41-45): set the current identity,
persist its id, navigate by role. -/
def handleLogin (u : User) : AppState :=
  { currentUser := some u, view := roleView u }

/-- App.handleLogout (App.tsx lines 47-51): clear the identity and the
pointer, navigate to landing. -/
def handleLogout : AppState :=
  { currentUser := none, view := View.landing }

/-- The user-triggered navigations of the view controller: a successful
login or signup (onLogin/onSignup), the logout button, the Navigation
bar's Dashboard button (rendered only when an identity is present,
Navigation lines 187-194), and the free navigations among the landing,
login and signup screens offered by the Navigation bar and by the
landing/login/signup screens themselves. -/
inductive Event where
  | login (u : User)
  | logout
  | navDashboard
  | navLanding
  | navLogin
  | navSignup

/-- One transition of the view controller; none when the event's
trigger is not available in the state (the Dashboard button requires a
current identity). -/
def step (s : AppState) : Event → Option AppState
  | Event.login u => some (handleLogin u)
  | Event.logout => some handleLogout
  | Event.navDashboard =>
    match s.currentUser with
    | some u => some { s with view := roleView u }
    | none => none
  | Event.navLanding => some { s with view := View.landing }
  | Event.navLogin => some { s with view := View.login }
  | Event.navSignup => some { s with view := View.signup }

/-- The reachable states of the view controller: every state produced
by initApp (for any persisted pointer and database state), closed under
the user-triggered transitions. -/
inductive Reachable : AppState → Prop where
  | init (ptr : Option String) (s : DBState) : Reachable (initApp ptr s)
  | step {s s' : AppState} (e : Event) : Reachable s → step s e = some s' → Reachable s'

/-- The content rendered by App.renderContent (App.tsx lines 64-79).
dashboardView carries the user value handed to the Dashboard component;
the source passes currentUser! there, which is null when currentUser is
absent, hence the Option. -/
inductive Rendered where
  | landingPage
  | loginForm
  | signupForm
  | dashboardView (u : Option User)
  | adminView (u : User)
deriving DecidableEq

/-- App.renderContent (App.tsx lines 64-79): the dashboard case falls
back to the login form without a current identity; the admin case falls
back to the standard dashboard unless the current identity has the
administrator role. -/
def renderContent (s : AppState) : Rendered :=
  match s.view with
  | View.landing => Rendered.landingPage
  | View.login => Rendered.loginForm
  | View.signup => Rendered.signupForm
  | View.dashboard =>
    match s.currentUser with
    | some u => Rendered.dashboardView (some u)
    | none => Rendered.loginForm
  | View.admin =>
    match s.currentUser with
    | some u =>
      if u.role = UserRole.ADMIN then Rendered.adminView u
      else Rendered.dashboardView (some u)
    | none => Rendered.dashboardView none

/-- The outcome of submitting the login form: onLogin with the found
record, or the inline error message path. -/
inductive LoginOutcome where
  | success (u : User)
  | failure
deriving DecidableEq

/-- Login.handleSubmit (the Login component, db.ts concatenation lines
247-275): a hardcoded admin check first (fixed email and password
admin123), then a lookup of the submitted email alone; any found record
is logged in without any password verification. -/
def loginSubmit (s : DBState) (email password : String) : LoginOutcome :=
  if email = adminEmail ∧ password = "admin123" then
    match getUserByEmail s adminEmail with
    | some u => LoginOutcome.success u
    | none =>
      match getUserByEmail s email with
      | some u => LoginOutcome.success u
      | none => LoginOutcome.failure
  else
    match getUserByEmail s email with
    | some u => LoginOutcome.success u
    | none => LoginOutcome.failure

/-- geminiService.ts: an inline data payload of a response part. -/
structure InlineData where
  mimeType : Option String
  data : Option String
deriving DecidableEq

/-- geminiService.ts: one part of a candidate's content. -/
structure ResponsePart where
  inlineData : Option InlineData
  text : Option String
deriving DecidableEq

/-- geminiService.ts: the content of a candidate, an optional part list. -/
structure CandidateContent where
  parts : Option (List ResponsePart)
deriving DecidableEq

/-- geminiService.ts: one response candidate. -/
structure Candidate where
  content : Option CandidateContent
deriving DecidableEq

/-- geminiService.ts: the external response, an optional candidate list. -/
structure GenResponse where
  candidates : Option (List Candidate)
deriving DecidableEq

/-- generateBreedAudio (geminiService.ts lines 125-136): the extraction
response.candidates?.[0]?.content?.parts?.[0]?.inlineData?.data with the
final or-else to the empty string.  The function is total: a missing
audio payload yields the empty string, never a thrown failure (contrast
generateSimilarBreedImage, which throws on the same condition). -/
def generateBreedAudio (resp : GenResponse) : String :=
  (((((resp.candidates.bind List.head?).bind Candidate.content).bind
      CandidateContent.parts).bind List.head?).bind
        ResponsePart.inlineData).bind InlineData.data |>.getD ""

/-- All parts carried anywhere in a candidate of the response; used to
state that a response contains no audio data part at all. -/
def candidateParts (c : Candidate) : List ResponsePart :=
  ((c.content).bind CandidateContent.parts).getD []

/-- All parts carried anywhere in the response. -/
def responseParts (resp : GenResponse) : List ResponsePart :=
  (resp.candidates.getD []).flatMap candidateParts

/-- Dashboard.handleHealthCheck (Dashboard.tsx lines 135-149): the
record update spread, currentResult with healthAnalysis set. -/
def handleHealthCheck (r : BreedResult) (analysis : HealthAnalysisResponse) : BreedResult :=
  { r with healthAnalysis := some analysis }

/-- Dashboard.handlePurchase (Dashboard.tsx lines 94-101): the record
update spread, currentResult with isPurchased set to true. -/
def handlePurchase (r : BreedResult) : BreedResult :=
  { r with isPurchased := some true }

/-! ### Store lemmas -/

theorem mem_putByKey {α : Type} (key : α → String) (x : α) (l : List α) :
    x ∈ putByKey key x l := by
  unfold putByKey
  split
  · next h =>
    obtain ⟨y, hy, hk⟩ := h
    exact List.mem_map.mpr ⟨y, hy, by rw [if_pos hk]⟩
  · exact List.mem_append.mpr (Or.inr (List.mem_singleton.mpr rfl))

theorem of_mem_putByKey {α : Type} {key : α → String} {x z : α} {l : List α}
    (hz : z ∈ putByKey key x l) : z = x ∨ (z ∈ l ∧ key z ≠ key x) := by
  unfold putByKey at hz
  split at hz
  · obtain ⟨y, hy, hfy⟩ := List.mem_map.mp hz
    by_cases hk : key y = key x
    · rw [if_pos hk] at hfy
      exact Or.inl hfy.symm
    · rw [if_neg hk] at hfy
      exact Or.inr ⟨hfy ▸ hy, hfy ▸ hk⟩
  · next hcond =>
    rcases List.mem_append.mp hz with h | h
    · exact Or.inr ⟨h, fun hk => hcond ⟨z, h, hk⟩⟩
    · exact Or.inl (List.mem_singleton.mp h)

theorem saveUser_ok_mem {s s' : DBState} {u : User} (h : saveUser s u = .ok s') :
    u ∈ s'.users := by
  unfold saveUser at h
  split at h
  · cases h
  · cases h
    exact mem_putByKey User.id u s.users

/-- C1: after a successful put of an Identity, putting a second Identity
with a distinct id but the same email is rejected by the unique email
index, and the store still contains the first record. -/
theorem c1_saveUser_email_unique {s s1 : DBState} {u1 u2 : User}
    (hok : saveUser s u1 = .ok s1) (hid : u1.id ≠ u2.id) (hem : u1.email = u2.email) :
    saveUser s1 u2 = .error "ConstraintError" ∧ u1 ∈ s1.users := by
  have hmem : u1 ∈ s1.users := saveUser_ok_mem hok
  refine ⟨?_, hmem⟩
  unfold saveUser
  rw [if_pos ⟨u1, hmem, hem, hid⟩]

theorem c1_saveUser_email_unique_witness :
    saveUser ⟨[⟨"u1", "Alice", "a@x.com", UserRole.USER, "t1"⟩], []⟩
        ⟨"u2", "Bob", "a@x.com", UserRole.USER, "t2"⟩ = .error "ConstraintError" ∧
      (⟨"u1", "Alice", "a@x.com", UserRole.USER, "t1"⟩ : User) ∈
        (⟨[⟨"u1", "Alice", "a@x.com", UserRole.USER, "t1"⟩], []⟩ : DBState).users :=
  @c1_saveUser_email_unique emptyDB
    ⟨[⟨"u1", "Alice", "a@x.com", UserRole.USER, "t1"⟩], []⟩
    ⟨"u1", "Alice", "a@x.com", UserRole.USER, "t1"⟩
    ⟨"u2", "Bob", "a@x.com", UserRole.USER, "t2"⟩
    (by simp [saveUser, putByKey, emptyDB]) (by decide) rfl

/-- C2: listing scans by owner returns exactly the stored scans whose
userId is the owner, newest first; concretely, inserting a scan and then
a strictly newer scan for the same owner into a database holding no
scans lists the newer one first. -/
theorem c2_getUserScans_newest_first (s0 : DBState) (uid : String) (r1 r2 : BreedResult)
    (h0 : s0.scans = []) (hu1 : r1.userId = uid) (hu2 : r2.userId = uid)
    (hne : r1.id ≠ r2.id) (ht : r1.timestamp < r2.timestamp) :
    getUserScans (saveScan (saveScan s0 r1) r2) uid = [r2, r1] ∧
    ∀ (s : DBState) (owner : String),
      (getUserScans s owner).Perm (s.scans.filter fun r => decide (r.userId = owner)) ∧
      (getUserScans s owner).Pairwise scanDescOrder := by
  constructor
  · have e1 : saveScan s0 r1 = { s0 with scans := [r1] } := by
      simp [saveScan, putByKey, h0]
    have e2 : (saveScan (saveScan s0 r1) r2).scans = [r1, r2] := by
      rw [e1]
      simp [saveScan, putByKey, hne]
    unfold getUserScans
    rw [e2]
    have ef : ([r1, r2].filter fun r => decide (r.userId = uid)) = [r1, r2] := by
      simp [List.filter, hu1, hu2]
    rw [ef]
    unfold sortByTimestampDesc
    simp [List.insertionSort, List.orderedInsert, scanDescOrder, Nat.not_le.mpr ht]
  · intro s owner
    exact ⟨List.perm_insertionSort scanDescOrder _, List.sorted_insertionSort scanDescOrder _⟩

theorem c2_getUserScans_newest_first_witness :
    getUserScans
        (saveScan (saveScan emptyDB
          ⟨"s1", "u1", "img1", "dog", "Labrador", 90, "d1", [], 1, none, 500, [], "10", "dt", "ex", none⟩)
          ⟨"s2", "u1", "img2", "dog", "Poodle", 80, "d2", [], 2, none, 700, [], "12", "dt", "ex", none⟩) "u1" =
      [⟨"s2", "u1", "img2", "dog", "Poodle", 80, "d2", [], 2, none, 700, [], "12", "dt", "ex", none⟩,
       ⟨"s1", "u1", "img1", "dog", "Labrador", 90, "d1", [], 1, none, 500, [], "10", "dt", "ex", none⟩] ∧
    ∀ (s : DBState) (owner : String),
      (getUserScans s owner).Perm (s.scans.filter fun r => decide (r.userId = owner)) ∧
      (getUserScans s owner).Pairwise scanDescOrder :=
  c2_getUserScans_newest_first emptyDB "u1" _ _ rfl rfl rfl (by decide) (by decide)

/-- In a list whose keys are pairwise distinct, a key that is present is
counted exactly once. -/
theorem countP_key_eq_one {α : Type} (key : α → String) (k : String) :
    ∀ (l : List α), (l.Pairwise fun a b => key a ≠ key b) → ∀ y ∈ l, key y = k →
      l.countP (fun z => decide (key z = k)) = 1
  | [], _, y, hy, _ => absurd hy (List.not_mem_nil y)
  | a :: l, hpd, y, hy, hk => by
    obtain ⟨hhead, htail⟩ := List.pairwise_cons.mp hpd
    rcases List.mem_cons.mp hy with rfl | hyl
    · have hz : l.countP (fun z => decide (key z = k)) = 0 :=
        List.countP_eq_zero.mpr fun z hz => by
          simp only [decide_eq_true_eq]
          intro he
          exact hhead z hz (hk.trans he.symm)
      rw [List.countP_cons, hz]
      simp [hk]
    · have hne : ¬ key a = k := fun he => hhead y hyl (he.trans hk.symm)
      rw [List.countP_cons, countP_key_eq_one key k l htail y hyl hk]
      simp [hne]

/-- C3: seeding the administrator succeeds, further seeding calls leave
the state unchanged, and afterwards the identity list holds exactly one
record with the fixed administrator email.  The hypotheses are the two
constraints the store itself enforces on every state it can hold: ids
are unique (the keyPath) and emails are unique (the unique index). -/
theorem c3_seedAdmin_idempotent (s : DBState) (now1 : String)
    (hids : s.users.Pairwise fun a b => a.id ≠ b.id)
    (hemails : s.users.Pairwise fun a b => a.email ≠ b.email) :
    ∃ s1, seedAdmin now1 s = .ok s1 ∧
      (∀ now2, seedAdmin now2 s1 = .ok s1) ∧
      (getAllUsers s1).countP (fun v => decide (v.email = adminEmail)) = 1 := by
  unfold seedAdmin
  cases hfind : getUserByEmail s adminEmail with
  | some u =>
    refine ⟨s, rfl, ?_, ?_⟩
    · intro now2
      rw [hfind]
    · have hfind' : s.users.find? (fun v => decide (v.email = adminEmail)) = some u := hfind
      have hu : u ∈ s.users := List.mem_of_find?_eq_some hfind'
      have hpe := List.find?_some hfind'
      exact countP_key_eq_one User.email adminEmail s.users hemails u hu (of_decide_eq_true hpe)
  | none =>
    have hfind' : s.users.find? (fun v => decide (v.email = adminEmail)) = none := hfind
    have hnone : ∀ v ∈ s.users, v.email ≠ adminEmail := by
      intro v hv
      have := List.find?_eq_none.mp hfind' v hv
      simpa using this
    unfold saveUser
    rw [if_neg (fun hex => by
      obtain ⟨v, hv, he, _⟩ := hex
      exact hnone v hv he)]
    refine ⟨_, rfl, ?_, ?_⟩
    · intro now2
      cases hs : getUserByEmail { s with users := putByKey User.id (adminUser now1) s.users } adminEmail with
      | some _ => rfl
      | none =>
        have hs' : (putByKey User.id (adminUser now1) s.users).find?
            (fun v => decide (v.email = adminEmail)) = none := hs
        exact absurd (by simp [adminUser] : decide ((adminUser now1).email = adminEmail) = true)
          (List.find?_eq_none.mp hs' (adminUser now1) (mem_putByKey _ _ _))
    · show (putByKey User.id (adminUser now1) s.users).countP
        (fun v => decide (v.email = adminEmail)) = 1
      unfold putByKey
      split
      · next hex =>
        obtain ⟨y0, hy0, hk0⟩ := hex
        rw [List.countP_map]
        refine Eq.trans (List.countP_congr ?_)
          (countP_key_eq_one User.id ((adminUser now1).id) s.users hids y0 hy0 hk0)
        intro v hv
        by_cases hid : v.id = (adminUser now1).id
        · simp [Function.comp, hid, adminUser]
        · simp [Function.comp, hid, hnone v hv]
      · rw [List.countP_append]
        have h0 : s.users.countP (fun v => decide (v.email = adminEmail)) = 0 :=
          List.countP_eq_zero.mpr fun v hv => by simp [hnone v hv]
        rw [h0]
        simp [adminUser]

theorem c3_seedAdmin_idempotent_witness :
    ∃ s1, seedAdmin "t0" emptyDB = .ok s1 ∧
      (∀ now2, seedAdmin now2 s1 = .ok s1) ∧
      (getAllUsers s1).countP (fun v => decide (v.email = adminEmail)) = 1 :=
  c3_seedAdmin_idempotent emptyDB "t0" List.Pairwise.nil List.Pairwise.nil

/-- Reading back by id: when every element of the list carrying the id
is the record itself and the record is present, the lookup finds it. -/
theorem find?_id_eq_some {l : List BreedResult} {r : BreedResult}
    (hr : r ∈ l) (hall : ∀ z ∈ l, z.id = r.id → z = r) :
    l.find? (fun x => decide (x.id = r.id)) = some r := by
  have hsome : (l.find? fun x => decide (x.id = r.id)).isSome :=
    List.find?_isSome.mpr ⟨r, hr, by simp⟩
  obtain ⟨z, hz⟩ := Option.isSome_iff_exists.mp hsome
  have hmemz := List.mem_of_find?_eq_some hz
  have hpz' := List.find?_some hz
  have hpz : z.id = r.id := of_decide_eq_true hpz'
  rw [hz, hall z hmemz hpz]

/-- C4: a stored Scan Result read back by its id from the owner list or
from the all list is field-for-field the stored record (record equality
covers every field, the optional health-analysis sub-record and the
optional purchased flag included). -/
theorem c4_saveScan_roundtrip (s : DBState) (r : BreedResult) :
    (getUserScans (saveScan s r) r.userId).find? (fun x => decide (x.id = r.id)) = some r ∧
    (getAllScans (saveScan s r)).find? (fun x => decide (x.id = r.id)) = some r := by
  have hmem : r ∈ (saveScan s r).scans := mem_putByKey BreedResult.id r s.scans
  have hall : ∀ z ∈ (saveScan s r).scans, z.id = r.id → z = r := by
    intro z hz hid
    rcases of_mem_putByKey hz with h | ⟨_, hne⟩
    · exact h
    · exact absurd hid hne
  constructor
  · have hmemU : r ∈ getUserScans (saveScan s r) r.userId := by
      unfold getUserScans sortByTimestampDesc
      rw [List.mem_insertionSort]
      exact List.mem_filter.mpr ⟨hmem, by simp⟩
    have hsubU : ∀ z ∈ getUserScans (saveScan s r) r.userId, z ∈ (saveScan s r).scans := by
      intro z hz
      unfold getUserScans sortByTimestampDesc at hz
      rw [List.mem_insertionSort] at hz
      exact (List.mem_filter.mp hz).1
    exact find?_id_eq_some hmemU fun z hz hid => hall z (hsubU z hz) hid
  · have hmemA : r ∈ getAllScans (saveScan s r) := by
      unfold getAllScans sortByTimestampDesc
      rw [List.mem_insertionSort]
      exact hmem
    have hsubA : ∀ z ∈ getAllScans (saveScan s r), z ∈ (saveScan s r).scans := by
      intro z hz
      unfold getAllScans sortByTimestampDesc at hz
      rw [List.mem_insertionSort] at hz
      exact hz
    exact find?_id_eq_some hmemA fun z hz hid => hall z (hsubA z hz) hid

/-- C5: deleting a scan id succeeds as a total operation; an absent id
leaves the state unchanged, and the deletion is idempotent. -/
theorem c5_deleteScan_absent (s : DBState) (id : String)
    (habs : ∀ r ∈ s.scans, r.id ≠ id) :
    deleteScan s id = s ∧
    ∀ (t : DBState) (j : String), deleteScan (deleteScan t j) j = deleteScan t j := by
  constructor
  · unfold deleteScan
    rw [List.filter_eq_self.mpr fun r hr => by simp [habs r hr]]
  · intro t j
    unfold deleteScan
    rw [List.filter_eq_self.mpr fun r hr => (List.mem_filter.mp hr).2]

theorem c5_deleteScan_absent_witness :
    deleteScan ⟨[], [⟨"s1", "u1", "img", "dog", "Pug", 70, "d", [], 5, none, 300, [], "12", "dt", "ex", none⟩]⟩
        "zzz" =
      ⟨[], [⟨"s1", "u1", "img", "dog", "Pug", 70, "d", [], 5, none, 300, [], "12", "dt", "ex", none⟩]⟩ ∧
    ∀ (t : DBState) (j : String), deleteScan (deleteScan t j) j = deleteScan t j :=
  c5_deleteScan_absent
    ⟨[], [⟨"s1", "u1", "img", "dog", "Pug", 70, "d", [], 5, none, 300, [], "12", "dt", "ex", none⟩]⟩
    "zzz" (by decide)


/-- C6: the startup restore. A pointer resolving to a stored Identity
makes it current and selects admin for the administrator role and
dashboard otherwise; an absent or unresolvable pointer leaves no current
identity and the landing screen. -/
theorem c6_initApp_restore (s : DBState) (ptr : Option String) :
    (∀ uid u, ptr = some uid → getUser s uid = some u →
      initApp ptr s = ⟨some u, if u.role = UserRole.ADMIN then View.admin else View.dashboard⟩) ∧
    (ptr = none → initApp ptr s = ⟨none, View.landing⟩) ∧
    (∀ uid, ptr = some uid → getUser s uid = none →
      initApp ptr s = ⟨none, View.landing⟩) := by
  refine ⟨?_, ?_, ?_⟩
  · intro uid u hp hg
    subst hp
    simp [initApp, hg, roleView]
  · intro hp
    subst hp
    rfl
  · intro uid hp hg
    subst hp
    simp [initApp, hg]

theorem c6_initApp_restore_witness :
    initApp (some "admin-1") ⟨[adminUser "t0"], []⟩ =
      ⟨some (adminUser "t0"),
        if (adminUser "t0").role = UserRole.ADMIN then View.admin else View.dashboard⟩ :=
  (c6_initApp_restore ⟨[adminUser "t0"], []⟩ (some "admin-1")).1 "admin-1" (adminUser "t0") rfl rfl

/-- The screen preconditions: the dashboard view holds a current
identity, the admin view holds a current identity with the
administrator role. -/
def Inv (s : AppState) : Prop :=
  (s.view = View.dashboard → ∃ u, s.currentUser = some u) ∧
  (s.view = View.admin → ∃ u, s.currentUser = some u ∧ u.role = UserRole.ADMIN)

theorem inv_initApp (ptr : Option String) (s : DBState) : Inv (initApp ptr s) := by
  cases ptr with
  | none => exact ⟨fun h => (nomatch h), fun h => nomatch h⟩
  | some uid =>
    cases hg : getUser s uid with
    | none =>
      have e : initApp (some uid) s = ⟨none, View.landing⟩ := by simp [initApp, hg]
      rw [e]
      exact ⟨fun h => (nomatch h), fun h => nomatch h⟩
    | some u =>
      have e : initApp (some uid) s = ⟨some u, roleView u⟩ := by simp [initApp, hg]
      rw [e]
      by_cases hr : u.role = UserRole.ADMIN
      · have ev : roleView u = View.admin := by simp [roleView, hr]
        rw [ev]
        exact ⟨fun h => (nomatch h), fun _ => ⟨u, rfl, hr⟩⟩
      · have ev : roleView u = View.dashboard := by simp [roleView, hr]
        rw [ev]
        exact ⟨fun _ => ⟨u, rfl⟩, fun h => nomatch h⟩

theorem inv_step {s s' : AppState} (e : Event) (_hs : Inv s) (hst : step s e = some s') :
    Inv s' := by
  cases e with
  | login u =>
    obtain rfl : handleLogin u = s' := Option.some.inj hst
    by_cases hr : u.role = UserRole.ADMIN
    · have ev : handleLogin u = ⟨some u, View.admin⟩ := by simp [handleLogin, roleView, hr]
      rw [ev]
      exact ⟨fun h => (nomatch h), fun _ => ⟨u, rfl, hr⟩⟩
    · have ev : handleLogin u = ⟨some u, View.dashboard⟩ := by simp [handleLogin, roleView, hr]
      rw [ev]
      exact ⟨fun _ => ⟨u, rfl⟩, fun h => nomatch h⟩
  | logout =>
    obtain rfl : handleLogout = s' := Option.some.inj hst
    exact ⟨fun h => (nomatch h), fun h => nomatch h⟩
  | navDashboard =>
    simp only [step] at hst
    cases hc : s.currentUser with
    | none =>
      rw [hc] at hst
      exact nomatch hst
    | some u =>
      rw [hc] at hst
      obtain rfl : (⟨some u, roleView u⟩ : AppState) = s' := Option.some.inj hst
      by_cases hr : u.role = UserRole.ADMIN
      · have ev : roleView u = View.admin := by simp [roleView, hr]
        rw [ev]
        exact ⟨fun h => (nomatch h), fun _ => ⟨u, rfl, hr⟩⟩
      · have ev : roleView u = View.dashboard := by simp [roleView, hr]
        rw [ev]
        exact ⟨fun _ => ⟨u, rfl⟩, fun h => nomatch h⟩
  | navLanding =>
    obtain rfl : ({ s with view := View.landing } : AppState) = s' := Option.some.inj hst
    exact ⟨fun h => (nomatch h), fun h => nomatch h⟩
  | navLogin =>
    obtain rfl : ({ s with view := View.login } : AppState) = s' := Option.some.inj hst
    exact ⟨fun h => (nomatch h), fun h => nomatch h⟩
  | navSignup =>
    obtain rfl : ({ s with view := View.signup } : AppState) = s' := Option.some.inj hst
    exact ⟨fun h => (nomatch h), fun h => nomatch h⟩

theorem reachable_inv {s : AppState} (h : Reachable s) : Inv s := by
  induction h with
  | init ptr dbs => exact inv_initApp ptr dbs
  | step e hr hst ih => exact inv_step e ih hst

/-- C7: in every reachable controller state, dashboard content carries a
present current identity and admin content requires the administrator
role; and whenever the admin screen is selected while the current
identity is not an administrator, the standard dashboard is rendered for
that identity instead. -/
theorem c7_render_preconditions :
    (∀ s, Reachable s →
      (∀ ou, renderContent s = Rendered.dashboardView ou →
        ∃ u, ou = some u ∧ s.currentUser = some u) ∧
      (∀ u, renderContent s = Rendered.adminView u →
        s.currentUser = some u ∧ u.role = UserRole.ADMIN)) ∧
    (∀ s u, s.view = View.admin → s.currentUser = some u → u.role ≠ UserRole.ADMIN →
      renderContent s = Rendered.dashboardView (some u)) := by
  constructor
  · intro s hreach
    obtain ⟨hdash, hadmin⟩ := reachable_inv hreach
    obtain ⟨cu, v⟩ := s
    constructor
    · intro ou hrend
      cases v with
      | landing => exact nomatch hrend
      | login => exact nomatch hrend
      | signup => exact nomatch hrend
      | dashboard =>
        obtain ⟨u, hc⟩ := hdash rfl
        obtain rfl : cu = some u := hc
        have e : renderContent ⟨some u, View.dashboard⟩ = Rendered.dashboardView (some u) := rfl
        rw [e] at hrend
        injection hrend with h
        exact ⟨u, h.symm, rfl⟩
      | admin =>
        obtain ⟨u, hc, hr⟩ := hadmin rfl
        obtain rfl : cu = some u := hc
        have e : renderContent ⟨some u, View.admin⟩ = Rendered.adminView u := by
          simp [renderContent, hr]
        rw [e] at hrend
        exact nomatch hrend
    · intro u hrend
      cases v with
      | landing => exact nomatch hrend
      | login => exact nomatch hrend
      | signup => exact nomatch hrend
      | dashboard =>
        cases cu with
        | none => exact nomatch hrend
        | some u' => exact nomatch hrend
      | admin =>
        obtain ⟨u', hc, hr⟩ := hadmin rfl
        obtain rfl : cu = some u' := hc
        have e : renderContent ⟨some u', View.admin⟩ = Rendered.adminView u' := by
          simp [renderContent, hr]
        rw [e] at hrend
        injection hrend with h
        exact ⟨congrArg some h, h ▸ hr⟩
  · intro s u hv hc hr
    obtain ⟨cu, v⟩ := s
    obtain rfl : v = View.admin := hv
    obtain rfl : cu = some u := hc
    simp [renderContent, hr]

theorem c7_render_preconditions_witness :
    ((∀ ou, renderContent (initApp none emptyDB) = Rendered.dashboardView ou →
        ∃ u, ou = some u ∧ (initApp none emptyDB).currentUser = some u) ∧
      (∀ u, renderContent (initApp none emptyDB) = Rendered.adminView u →
        (initApp none emptyDB).currentUser = some u ∧ u.role = UserRole.ADMIN)) ∧
    renderContent ⟨some ⟨"u1", "Alice", "a@x.com", UserRole.USER, "t1"⟩, View.admin⟩ =
      Rendered.dashboardView (some ⟨"u1", "Alice", "a@x.com", UserRole.USER, "t1"⟩) :=
  ⟨c7_render_preconditions.1 (initApp none emptyDB) (Reachable.init none emptyDB),
   c7_render_preconditions.2 ⟨some ⟨"u1", "Alice", "a@x.com", UserRole.USER, "t1"⟩, View.admin⟩
     ⟨"u1", "Alice", "a@x.com", UserRole.USER, "t1"⟩ rfl rfl (by decide)⟩

/-- C8: speech synthesis extracts the raw encoded audio payload from the
response; when the response carries no audio data part anywhere, the
result is the empty string and no failure is raised (the function is
total on responses). -/
theorem c8_generateBreedAudio_total (resp : GenResponse) :
    (∀ cands c content ps p idata d,
      resp.candidates = some cands → cands.head? = some c →
      c.content = some content → content.parts = some ps → ps.head? = some p →
      p.inlineData = some idata → idata.data = some d →
      generateBreedAudio resp = d) ∧
    ((∀ p ∈ responseParts resp, p.inlineData = none) → generateBreedAudio resp = "") := by
  constructor
  · intro cands c content ps p idata d h1 h2 h3 h4 h5 h6 h7
    simp [generateBreedAudio, h1, h2, h3, h4, h5, h6, h7]
  · intro hnone
    cases h1 : resp.candidates with
    | none => simp [generateBreedAudio, h1]
    | some cands =>
      cases h2 : cands.head? with
      | none => simp [generateBreedAudio, h1, h2]
      | some c =>
        cases h3 : c.content with
        | none => simp [generateBreedAudio, h1, h2, h3]
        | some content =>
          cases h4 : content.parts with
          | none => simp [generateBreedAudio, h1, h2, h3, h4]
          | some ps =>
            cases h5 : ps.head? with
            | none => simp [generateBreedAudio, h1, h2, h3, h4, h5]
            | some p =>
              have hcmem : c ∈ cands := by
                obtain ⟨ys, rfl⟩ := List.head?_eq_some_iff.mp h2
                exact List.mem_cons_self c ys
              have hpmem : p ∈ ps := by
                obtain ⟨ys, rfl⟩ := List.head?_eq_some_iff.mp h5
                exact List.mem_cons_self p ys
              have hp : p ∈ responseParts resp := by
                unfold responseParts
                rw [h1]
                exact List.mem_flatMap.mpr
                  ⟨c, hcmem, by simp [candidateParts, h3, h4, hpmem]⟩
              simp [generateBreedAudio, h1, h2, h3, h4, h5, hnone p hp]

theorem c8_generateBreedAudio_total_witness :
    generateBreedAudio ⟨some [⟨some ⟨some [⟨some ⟨none, some "UklGRg"⟩, none⟩]⟩⟩]⟩ = "UklGRg" ∧
    generateBreedAudio ⟨some [⟨some ⟨some [⟨none, some "no audio here"⟩]⟩⟩]⟩ = "" :=
  ⟨(c8_generateBreedAudio_total ⟨some [⟨some ⟨some [⟨some ⟨none, some "UklGRg"⟩, none⟩]⟩⟩]⟩).1
      _ _ _ _ _ _ _ rfl rfl rfl rfl rfl rfl rfl,
   (c8_generateBreedAudio_total ⟨some [⟨some ⟨some [⟨none, some "no audio here"⟩]⟩⟩]⟩).2
      (by decide)⟩

/-- C9: for any stored Identity whose email is not the fixed
administrator email, submitting the login form logs that Identity in
whatever the password input is; the password does not influence the
outcome. -/
theorem c9_login_ignores_password (s : DBState) (email p1 p2 : String) (u : User)
    (hne : email ≠ adminEmail) (hfound : getUserByEmail s email = some u) :
    loginSubmit s email p1 = LoginOutcome.success u ∧
    loginSubmit s email p1 = loginSubmit s email p2 := by
  have h1 : ∀ pw, loginSubmit s email pw = LoginOutcome.success u := by
    intro pw
    unfold loginSubmit
    rw [if_neg (fun h => hne h.1), hfound]
  exact ⟨h1 p1, (h1 p1).trans (h1 p2).symm⟩

theorem c9_login_ignores_password_witness :
    loginSubmit ⟨[⟨"u1", "Alice", "a@x.com", UserRole.USER, "t1"⟩], []⟩ "a@x.com" "pw-one" =
      LoginOutcome.success ⟨"u1", "Alice", "a@x.com", UserRole.USER, "t1"⟩ ∧
    loginSubmit ⟨[⟨"u1", "Alice", "a@x.com", UserRole.USER, "t1"⟩], []⟩ "a@x.com" "pw-one" =
      loginSubmit ⟨[⟨"u1", "Alice", "a@x.com", UserRole.USER, "t1"⟩], []⟩ "a@x.com" "pw-two" :=
  c9_login_ignores_password ⟨[⟨"u1", "Alice", "a@x.com", UserRole.USER, "t1"⟩], []⟩
    "a@x.com" "pw-one" "pw-two" ⟨"u1", "Alice", "a@x.com", UserRole.USER, "t1"⟩
    (by decide) rfl

/-- C10: attaching a health analysis sets only the healthAnalysis field
and leaves every other field of the Scan Result unchanged; flipping the
purchased flag sets only isPurchased to true and leaves every other
field unchanged. -/
theorem c10_scan_update_frame (r : BreedResult) (a : HealthAnalysisResponse) :
    ((handleHealthCheck r a).healthAnalysis = some a ∧
      (handleHealthCheck r a).id = r.id ∧
      (handleHealthCheck r a).userId = r.userId ∧
      (handleHealthCheck r a).imageUrl = r.imageUrl ∧
      (handleHealthCheck r a).animalType = r.animalType ∧
      (handleHealthCheck r a).breedName = r.breedName ∧
      (handleHealthCheck r a).confidence = r.confidence ∧
      (handleHealthCheck r a).description = r.description ∧
      (handleHealthCheck r a).similarBreeds = r.similarBreeds ∧
      (handleHealthCheck r a).timestamp = r.timestamp ∧
      (handleHealthCheck r a).price = r.price ∧
      (handleHealthCheck r a).uses = r.uses ∧
      (handleHealthCheck r a).lifeExpectancy = r.lifeExpectancy ∧
      (handleHealthCheck r a).dietRoutine = r.dietRoutine ∧
      (handleHealthCheck r a).exercisePlan = r.exercisePlan ∧
      (handleHealthCheck r a).isPurchased = r.isPurchased) ∧
    ((handlePurchase r).isPurchased = some true ∧
      (handlePurchase r).id = r.id ∧
      (handlePurchase r).userId = r.userId ∧
      (handlePurchase r).imageUrl = r.imageUrl ∧
      (handlePurchase r).animalType = r.animalType ∧
      (handlePurchase r).breedName = r.breedName ∧
      (handlePurchase r).confidence = r.confidence ∧
      (handlePurchase r).description = r.description ∧
      (handlePurchase r).similarBreeds = r.similarBreeds ∧
      (handlePurchase r).timestamp = r.timestamp ∧
      (handlePurchase r).healthAnalysis = r.healthAnalysis ∧
      (handlePurchase r).price = r.price ∧
      (handlePurchase r).uses = r.uses ∧
      (handlePurchase r).lifeExpectancy = r.lifeExpectancy ∧
      (handlePurchase r).dietRoutine = r.dietRoutine ∧
      (handlePurchase r).exercisePlan = r.exercisePlan) :=
  ⟨⟨rfl, rfl, rfl, rfl, rfl, rfl, rfl, rfl, rfl, rfl, rfl, rfl, rfl, rfl, rfl, rfl⟩,
   ⟨rfl, rfl, rfl, rfl, rfl, rfl, rfl, rfl, rfl, rfl, rfl, rfl, rfl, rfl, rfl, rfl⟩⟩

end BreedFinder
